import Mathlib

/-!
Verification of the AUR RPC client (src/lib.rs) against its specification.

The development shallowly embeds the core of the client:
  * the error taxonomy (`Error`),
  * the record mapper (`Package.from_json`),
  * the envelope interpreter (the post-parse part of `Aur::rpc`),
  * the per-operation result handling (`Aur::search` / `msearch` / `info` /
    `multiinfo`),
  * the query builder (`Aur::call_one` / `Aur::call_multi` on top of
    `url::Url::set_query_from_pairs`).

Rust `Result<T, Error>` together with the possibility of a `panic!` is
embedded as the three-valued `Outcome`: a Rust function call that panics is
modelled as `Outcome.panic msg`.

External collaborators used by the source are embedded from their documented
behaviour for the crate versions the source was written against:
  * `chrono::naive::datetime::NaiveDateTime::from_timestamp` (chrono 0.2),
    which panics on an out-of-range number of seconds;
  * `url::Url::set_query_from_pairs` (rust-url 0.2), which serializes the
    pairs in the `application/x-www-form-urlencoded` format;
  * `rustc_serialize::json::Json` (the generic JSON value tree) and its
    compact `to_string` rendering.
-/

namespace RustAur

/-- Error taxonomy of the client, mirroring `enum Error` in the source.
Payloads that are opaque collaborator values (`io::Error`, the boxed SSL
error, `Utf8Error`, the parser error code and the HTTP status code) are
abstracted to plain strings and numbers; the core never constructs or
inspects them beyond carrying them along. -/
inductive Error where
  | Io (msg : String)
  | Ssl (msg : String)
  | Utf8
  | Http (code : Nat) (message : String)
  | Aur (message : String)
  | InvalidResponse
  | Parse (code : Nat) (line : Nat) (col : Nat)
deriving DecidableEq, Repr

/-- Outcome of running a fallible Rust computation: a normal `Ok` value, a
normal `Err` value, or a `panic!` (which aborts the whole call). -/
inductive Outcome (α : Type) where
  | ok (a : α)
  | err (e : Error)
  | panic (msg : String)
deriving DecidableEq, Repr

/-- Sequencing of `Outcome` computations: models Rust's `try!` / `?` chaining,
with a panic aborting everything. -/
def Outcome.bind {α β : Type} (x : Outcome α) (f : α → Outcome β) : Outcome β :=
  match x with
  | .ok a => f a
  | .err e => .err e
  | .panic m => .panic m

/-- Mapping over the `ok` value of an `Outcome`, modelling `Result::map`. -/
def Outcome.map {α β : Type} (f : α → β) (x : Outcome α) : Outcome β :=
  match x with
  | .ok a => .ok (f a)
  | .err e => .err e
  | .panic m => .panic m

instance : Monad Outcome where
  pure := .ok
  bind := Outcome.bind

/-- Test for the panic outcome. -/
def Outcome.isPanic {α : Type} : Outcome α → Bool
  | .panic _ => true
  | _ => false

/-! ### The chrono collaborator

The source stores the two timestamp fields as
`chrono::naive::datetime::NaiveDateTime` values obtained through
`NaiveDateTime::from_timestamp(secs, 0)`.  A `NaiveDateTime` at second
precision is uniquely determined by its number of seconds since the unix
epoch, so it is embedded as that number.  chrono 0.2 can only represent
dates from January 1, -262144 to December 31, 262143 (proleptic Gregorian);
`from_timestamp` panics outside that range. -/

/-- Calendar date-time (UTC, second precision), represented by its number of
seconds since the unix epoch.  The nanosecond component is always zero in
this client. -/
structure NaiveDateTime where
  secs : Int
deriving DecidableEq, Repr

/-- Number of days from 0001-01-01 (= day 1 of the common era, proleptic
Gregorian) through December 31 of the given year. -/
def daysThroughYear (y : Int) : Int :=
  365 * y + y.fdiv 4 - y.fdiv 100 + y.fdiv 400

/-- Day number (days from CE) of January 1 of year -262144, the smallest
date chrono can represent. -/
def chronoMinDay : Int := daysThroughYear (-262145) + 1

/-- Day number (days from CE) of December 31 of year 262143, the largest
date chrono can represent. -/
def chronoMaxDay : Int := daysThroughYear 262143

/-- Day number (days from CE) of January 1, 1970 (the unix epoch). -/
def epochDay : Int := daysThroughYear 1969 + 1

/-- Embedding of chrono 0.2 `NaiveDateTime::from_timestamp_opt(secs, 0)`:
the result is `some` exactly when the corresponding calendar date is
representable, i.e. when the day the timestamp falls on lies between
`chronoMinDay` and `chronoMaxDay`. -/
def fromTimestampOpt (secs : Int) : Option NaiveDateTime :=
  let days := secs.fdiv 86400
  if chronoMinDay ≤ days + epochDay ∧ days + epochDay ≤ chronoMaxDay then
    some ⟨secs⟩
  else
    none

/-- Embedding of chrono 0.2 `NaiveDateTime::from_timestamp(secs, 0)`, which
panics (`Option::expect`) when the timestamp is out of range. -/
def fromTimestamp (secs : Int) : Outcome NaiveDateTime :=
  match fromTimestampOpt secs with
  | some d => .ok d
  | none => .panic "invalid or out-of-range datetime"

/-- Panic message of chrono's `from_timestamp` on an unrepresentable
timestamp. -/
def outOfRangeMsg : String := "invalid or out-of-range datetime"

/-- Validity predicate of `fromTimestampOpt`: the day the timestamp falls on
is representable by chrono. -/
def inChronoRange (secs : Int) : Prop :=
  chronoMinDay ≤ secs.fdiv 86400 + epochDay ∧
  secs.fdiv 86400 + epochDay ≤ chronoMaxDay

instance (secs : Int) : Decidable (inChronoRange secs) :=
  inferInstanceAs (Decidable (_ ∧ _))

/-! ### The JSON value tree (rustc_serialize collaborator) -/

/-- Generic JSON value, mirroring `rustc_serialize::json::Json`.  Unsigned
and signed integers are unbounded here (the parser only ever produces values
that fit `u64` resp. `i64`, and the core forwards them unchanged).  The
`Object` map (`BTreeMap<String, Json>` in the source) is embedded as an
association list; a map never holds two entries with the same key. -/
inductive Json where
  | I64 (v : Int)
  | U64 (v : Nat)
  | F64 (v : Float)
  | String (s : String)
  | Boolean (b : Bool)
  | Array (xs : List Json)
  | Object (kvs : List (String × Json))
  | Null

/-- Embedding of `Json::as_string`: the payload of a JSON string, `none` for
every other variant. -/
def as_string : Json → Option String
  | .String s => some s
  | _ => none

/-- Embedding of `Json::as_array`: the payload of a JSON array, `none` for
every other variant. -/
def as_array : Json → Option (List Json)
  | .Array xs => some xs
  | _ => none

/-- First value stored under the given key of an object, mirroring
`BTreeMap::get` (on a map, keys are unique, so "first" is "the"). -/
def lookupKey : List (String × Json) → String → Option Json
  | [], _ => none
  | (k', v) :: rest, k => if k' = k then some v else lookupKey rest k

/-- Embedding of `BTreeMap::remove(key)` on the association-list view of an
object: the removed value (if any) together with the remaining map. -/
def removeKey (h : List (String × Json)) (k : String) :
    Option Json × List (String × Json) :=
  match h with
  | [] => (none, [])
  | (k', v) :: rest =>
    if k' = k then (some v, rest)
    else
      let r := removeKey rest k
      (r.1, (k', v) :: r.2)

/-! ### The package record and the record mapper -/

/-- One repository entry, mirroring `struct Package`.  `u64` fields are
embedded as `Nat` (they are carried through unchanged from parsed JSON
unsigned integers). -/
structure Package where
  base_name : String
  base_id : Nat
  name : String
  version : String
  homepage : String
  description : String
  out_of_date : Bool
  created : NaiveDateTime
  modified : NaiveDateTime
  license : Option String
  maintainer : Option String
  votes : Nat
  id : Nat
  category_id : Nat
  download : String
deriving DecidableEq, Repr

/-- Largest `u64` value that fits `i64`, i.e. `i64::MAX`. -/
def i64Max : Nat := 9223372036854775807

/-- Field extractor for a required string field: matches
`Some(String(v)) => v, _ => return Err(Error::InvalidResponse)`. -/
def reqString (v : Option Json) : Outcome String :=
  match v with
  | some (.String s) => .ok s
  | _ => .err .InvalidResponse

/-- Field extractor for a required unsigned-integer field: matches
`Some(U64(v)) => v, _ => return Err(Error::InvalidResponse)`. -/
def reqU64 (v : Option Json) : Outcome Nat :=
  match v with
  | some (.U64 n) => .ok n
  | _ => .err .InvalidResponse

/-- Field extractor for an optional string field (`License`, `Maintainer`):
matches `Some(String(v)) => Some(v), Some(Null) => None, _ => return Err`. -/
def optString (v : Option Json) : Outcome (Option String) :=
  match v with
  | some (.String s) => .ok (some s)
  | some .Null => .ok none
  | _ => .err .InvalidResponse

/-- Field extractor for the two timestamp fields: matches
`Some(U64(v)) if v <= (i64::MAX as u64) => NaiveDateTime::from_timestamp(v as i64, 0),
 _ => return Err(Error::InvalidResponse)`. -/
def timestampField (v : Option Json) : Outcome NaiveDateTime :=
  match v with
  | some (.U64 n) =>
    if n ≤ i64Max then fromTimestamp (Int.ofNat n) else .err .InvalidResponse
  | _ => .err .InvalidResponse

/-- Field extractor for `OutOfDate`: matches
`Some(U64(v)) => v != 0, _ => return Err(Error::InvalidResponse)`. -/
def boolField (v : Option Json) : Outcome Bool :=
  match v with
  | some (.U64 n) => .ok (n != 0)
  | _ => .err .InvalidResponse

/-- Embedding of `Package::from_json`.  The fields are consumed from a
working copy of the object by successive `remove` calls, in the evaluation
order of the struct literal in the source, and the first failing field
aborts the whole mapping. -/
def from_json : Json → Outcome Package
  | .Object h0 => do
    let r1 := removeKey h0 "PackageBase"
    let base_name ← reqString r1.1
    let r2 := removeKey r1.2 "PackageBaseID"
    let base_id ← reqU64 r2.1
    let r3 := removeKey r2.2 "Name"
    let name ← reqString r3.1
    let r4 := removeKey r3.2 "CategoryID"
    let category_id ← reqU64 r4.1
    let r5 := removeKey r4.2 "Description"
    let description ← reqString r5.1
    let r6 := removeKey r5.2 "FirstSubmitted"
    let created ← timestampField r6.1
    let r7 := removeKey r6.2 "LastModified"
    let modified ← timestampField r7.1
    let r8 := removeKey r7.2 "ID"
    let id ← reqU64 r8.1
    let r9 := removeKey r8.2 "License"
    let license ← optString r9.1
    let r10 := removeKey r9.2 "Maintainer"
    let maintainer ← optString r10.1
    let r11 := removeKey r10.2 "NumVotes"
    let votes ← reqU64 r11.1
    let r12 := removeKey r11.2 "OutOfDate"
    let out_of_date ← boolField r12.1
    let r13 := removeKey r12.2 "URL"
    let homepage ← reqString r13.1
    let r14 := removeKey r13.2 "URLPath"
    let download ← reqString r14.1
    let r15 := removeKey r14.2 "Version"
    let version ← reqString r15.1
    pure { base_name, base_id, name, version, homepage, description,
           out_of_date, created, modified, license, maintainer, votes, id,
           category_id, download }
  | _ => .err .InvalidResponse

/-! ### Compact JSON rendering (rustc_serialize `Json::to_string`)

The envelope interpreter renders a non-string `results` value of an error
envelope to text via `Json::to_string`, the compact encoder of the
rustc_serialize collaborator. -/

/-- Four lowercase hexadecimal digits, as used by the `\uXXXX` escapes of the
compact JSON encoder. -/
def hex4 (n : Nat) : String :=
  let d := fun (k : Nat) =>
    if k < 10 then Char.ofNat (0x30 + k) else Char.ofNat (0x57 + k)
  String.mk [d (n / 4096 % 16), d (n / 256 % 16), d (n / 16 % 16), d (n % 16)]

/-- Escaping of one character inside a JSON string literal, following the
`escape_str` helper of the encoder: quote, backslash, the named control
escapes, `\uXXXX` for the remaining control characters and DEL, and every
other character unchanged. -/
def escapeJsonChar (c : Char) : String :=
  if c = '"' then "\\\""
  else if c = '\\' then "\\\\"
  else if c = '\x08' then "\\b"
  else if c = '\t' then "\\t"
  else if c = '\n' then "\\n"
  else if c = '\x0c' then "\\f"
  else if c = '\r' then "\\r"
  else if c.toNat < 0x20 ∨ c.toNat = 0x7f then "\\u" ++ hex4 c.toNat
  else String.singleton c

/-- Rendering of a JSON string as a quoted, escaped string literal. -/
def escape_str (s : String) : String :=
  "\"" ++ String.join (s.toList.map escapeJsonChar) ++ "\""

/-- Rendering of a JSON f64, following `fmt_number_or_null`: non-finite
values render as `null`; the decimal formatting of finite values is
approximated by Lean's own `Float` formatter (the core never constructs
floats itself, it only forwards them from the parser). -/
def floatToString (v : Float) : String :=
  if v.isNaN || v.isInf then "null" else toString v

mutual

/-- Compact rendering of a JSON value, mirroring `Json::to_string` of the
rustc_serialize collaborator (no whitespace, object entries in map order). -/
def jsonToString : Json → String
  | .I64 n => toString n
  | .U64 n => toString n
  | .F64 v => floatToString v
  | .String s => escape_str s
  | .Boolean b => if b then "true" else "false"
  | .Array xs => "[" ++ jsonListToString xs ++ "]"
  | .Object kvs => "\x7b" ++ jsonObjToString kvs ++ "\x7d"
  | .Null => "null"

/-- Comma-separated rendering of the elements of a JSON array. -/
def jsonListToString : List Json → String
  | [] => ""
  | [x] => jsonToString x
  | x :: rest => jsonToString x ++ "," ++ jsonListToString rest

/-- Comma-separated rendering of the entries of a JSON object. -/
def jsonObjToString : List (String × Json) → String
  | [] => ""
  | [(k, v)] => escape_str k ++ ":" ++ jsonToString v
  | (k, v) :: rest =>
    escape_str k ++ ":" ++ jsonToString v ++ "," ++ jsonObjToString rest

end

/-! ### The envelope interpreter

`Aur::rpc` performs the HTTP round trip (external), drains non-success
responses into an `Http` error, parses the body (external), and then
interprets the parsed JSON value.  The claims under verification are about
the interpretation of an already-parsed value, embedded here. -/

/-- Message of a service-reported error: the `results` value itself when it
is a JSON string, otherwise its compact rendering.  Mirrors the
`match result { Json::String(s) => s, r => r.to_string() }` in `Aur::rpc`. -/
def aurMessage : Json → String
  | .String s => s
  | r => jsonToString r

/-- Embedding of the post-parse part of `Aur::rpc`: the parsed value must be
an object; `type` and then `results` are removed from it (the second remove
operates on the map left by the first); an envelope missing either field is
invalid; a string `type` equal to `"error"` yields a service-reported `Aur`
error; a non-string `type` is invalid; any other string `type` yields the
`results` value unchanged. -/
def interpretEnvelope : Json → Outcome Json
  | .Object obj =>
    match (removeKey obj "type").1, (removeKey (removeKey obj "type").2 "results").1 with
    | some typ, some result =>
      match as_string typ with
      | some s =>
        if s = "error" then .err (.Aur (aurMessage result)) else .ok result
      | none => .err .InvalidResponse
    | _, _ => .err .InvalidResponse
  | _ => .err .InvalidResponse

/-! ### Caller-facing operations (response side)

Each operation builds a URL (see the query builder below), performs the call
and then post-processes the JSON payload returned by `Aur::rpc`.  The
post-processing is embedded as a function of that payload. -/

/-- Fail-fast element-wise record mapping, mirroring
`a.into_iter().map(Package::from_json).collect::<Result<Vec<_>, _>>()`. -/
def collectPackages : List Json → Outcome (List Package)
  | [] => .ok []
  | j :: rest => do
    let p ← from_json j
    let ps ← collectPackages rest
    pure (p :: ps)

/-- Response handling of `Aur::search`: the payload must be an array, whose
elements are mapped to packages. -/
def search_result (j : Json) : Outcome (List Package) :=
  match j with
  | .Array a => collectPackages a
  | _ => .err .InvalidResponse

/-- Response handling of `Aur::msearch`, identical in shape to `search`. -/
def msearch_result (j : Json) : Outcome (List Package) :=
  match j with
  | .Array a => collectPackages a
  | _ => .err .InvalidResponse

/-- Response handling of `Aur::multiinfo`, identical in shape to `search`. -/
def multiinfo_result (j : Json) : Outcome (List Package) :=
  match j with
  | .Array a => collectPackages a
  | _ => .err .InvalidResponse

/-- Response handling of `Aur::info`: an empty-array payload means "not
found" (`Ok(None)`); any other payload is fed to the record mapper and
wrapped in `Some`. -/
def info_result (pkg : Json) : Outcome (Option Package) :=
  if ((as_array pkg).map List.isEmpty).getD false then
    .ok none
  else
    Outcome.map some (from_json pkg)

/-! ### The query builder

`Aur::call_one` and `Aur::call_multi` clone the base URL and call
`url::Url::set_query_from_pairs`, which serializes the name/value pairs in
the `application/x-www-form-urlencoded` format: bytes are emitted one by
one, with space becoming `+`, ASCII alphanumerics and `*`, `-`, `.`, `_`
passed through, and every other byte percent-encoded with two uppercase
hexadecimal digits; pairs are joined as `name=value` separated by `&`.
Rust `&str` arguments are embedded as their byte sequences (`Bytes`); the
base URL is a fixed constant and only the query string is modelled. -/

/-- Byte sequence of a Rust string slice (each element is one byte,
`0 ≤ b < 256`). -/
abbrev Bytes := List Nat

/-- Byte sequence of an ASCII string literal (used for the fixed operation
names and parameter keys, which are all ASCII). -/
def strBytes (s : String) : Bytes := s.toList.map Char.toNat

/-- Whether all elements of a byte sequence are bytes. -/
def validBytes (bs : Bytes) : Prop := ∀ b ∈ bs, b < 256

instance (bs : Bytes) : Decidable (validBytes bs) :=
  inferInstanceAs (Decidable (∀ b ∈ bs, b < 256))

/-- Bytes the form-urlencoded serializer passes through unchanged:
`*`, `-`, `.`, `_`, digits and ASCII letters. -/
def isFormSafe (b : Nat) : Bool :=
  b == 0x2A || b == 0x2D || b == 0x2E || b == 0x5F ||
  (0x30 ≤ b && b ≤ 0x39) || (0x41 ≤ b && b ≤ 0x5A) || (0x61 ≤ b && b ≤ 0x7A)

/-- Uppercase hexadecimal digit, as used by the `%XX` escapes of the
serializer. -/
def hexUpper (n : Nat) : Char :=
  if n < 10 then Char.ofNat (0x30 + n) else Char.ofNat (0x37 + n)

/-- Serialization of one byte of a form-urlencoded component. -/
def encodeByte (b : Nat) : List Char :=
  if b == 0x20 then ['+']
  else if isFormSafe b then [Char.ofNat b]
  else ['%', hexUpper (b / 16), hexUpper (b % 16)]

/-- Percent-encoding of one component (a name or a value) of the query. -/
def encodeComponent (bs : Bytes) : List Char :=
  (bs.map encodeByte).flatten

/-- Serialization of one `name=value` pair. -/
def serializePair (kv : Bytes × Bytes) : List Char :=
  encodeComponent kv.1 ++ '=' :: encodeComponent kv.2

/-- Embedding of `url::Url::set_query_from_pairs` (restricted to the query
string it produces): the pairs serialized in order, separated by `&`. -/
def set_query_from_pairs : List (Bytes × Bytes) → List Char
  | [] => []
  | [kv] => serializePair kv
  | kv :: rest => serializePair kv ++ '&' :: set_query_from_pairs rest

/-- Query string built by `Aur::call_one`:
`set_query_from_pairs([("type", fun), ("arg", arg)])`. -/
def call_one_query (op arg : Bytes) : List Char :=
  set_query_from_pairs [(strBytes "type", op), (strBytes "arg", arg)]

/-- Query string built by `Aur::call_multi`:
`set_query_from_pairs(once(("type", fun)).chain(repeat("arg[]").zip(args)))`. -/
def call_multi_query (op : Bytes) (args : List Bytes) : List Char :=
  set_query_from_pairs ((strBytes "type", op) :: args.map (fun a => (strBytes "arg[]", a)))

/-! ### Decoding a form-urlencoded query

The round-trip half of the query-builder contract is stated against a
standard form-urlencoded decoder: split the query on `&`, split each piece
at the first `=`, turn `+` back into a space and `%XX` back into a byte. -/

/-- Value of one hexadecimal digit character (either case). -/
def hexVal (c : Char) : Option Nat :=
  if 0x30 ≤ c.toNat ∧ c.toNat ≤ 0x39 then some (c.toNat - 0x30)
  else if 0x41 ≤ c.toNat ∧ c.toNat ≤ 0x46 then some (c.toNat - 0x37)
  else if 0x61 ≤ c.toNat ∧ c.toNat ≤ 0x66 then some (c.toNat - 0x57)
  else none

mutual

/-- Percent-decoding of one component back into its byte sequence: `+`
becomes a space, `%XX` becomes the byte `XX`, any other character stands
for its own code point. -/
def decodeComponent : List Char → Option Bytes
  | [] => some []
  | c :: rest =>
    if c = '+' then (decodeComponent rest).map (0x20 :: ·)
    else if c = '%' then decodeEscape rest
    else (decodeComponent rest).map (c.toNat :: ·)
termination_by cs => cs.length
decreasing_by all_goals (simp_wf; try omega)

/-- Decoding of the two hexadecimal digits following a `%`, then of the
remainder of the component. -/
def decodeEscape : List Char → Option Bytes
  | hi :: lo :: rest2 =>
    (hexVal hi).bind fun h =>
      (hexVal lo).bind fun l =>
        (decodeComponent rest2).map ((16 * h + l) :: ·)
  | _ => none
termination_by cs => cs.length
decreasing_by all_goals (simp_wf; try omega)

end

/-- Splitting a query string at every `&`. -/
def splitOnAmp : List Char → List (List Char)
  | [] => [[]]
  | c :: rest =>
    if c = '&' then [] :: splitOnAmp rest
    else
      match splitOnAmp rest with
      | [] => [[c]]
      | g :: gs => (c :: g) :: gs

/-- Splitting one `name=value` piece at its first `=`. -/
def splitPair : List Char → List Char × List Char
  | [] => ([], [])
  | c :: rest =>
    if c = '=' then ([], rest)
    else
      let r := splitPair rest
      (c :: r.1, r.2)

/-- Decoding one `name=value` piece. -/
def decodePair (cs : List Char) : Option (Bytes × Bytes) :=
  match decodeComponent (splitPair cs).1, decodeComponent (splitPair cs).2 with
  | some k, some v => some (k, v)
  | _, _ => none

/-- Decoding a list of `name=value` pieces, failing if any piece fails. -/
def decodePairs : List (List Char) → Option (List (Bytes × Bytes))
  | [] => some []
  | p :: rest =>
    match decodePair p, decodePairs rest with
    | some kv, some kvs => some (kv :: kvs)
    | _, _ => none

/-- Decoding a whole query string back into its name/value pairs. -/
def parseQuery (cs : List Char) : Option (List (Bytes × Bytes)) :=
  decodePairs (splitOnAmp cs)

/-! ### Predicates used to state the claims -/

/-- Invalid-envelope condition as the specification words it: the parsed
value is not a JSON object, or the object lacks a `type` field or lacks a
`results` field, or the `type` field is present but is not a JSON string. -/
def envelopeInvalid (j : Json) : Prop :=
  match j with
  | .Object h =>
    lookupKey h "type" = none ∨ lookupKey h "results" = none ∨
      (∃ t, lookupKey h "type" = some t ∧ as_string t = none)
  | _ => True

/-- A source value unacceptable for an optional string field (`License`,
`Maintainer`): anything other than a JSON string or JSON null, including a
missing key. -/
def badOptValue : Option Json → Bool
  | some (.String _) => false
  | some .Null => false
  | _ => true

/-- Keys of the thirteen required (non-optional) fields of a package
object. -/
def requiredKeys : List String :=
  ["PackageBase", "PackageBaseID", "Name", "CategoryID", "Description",
   "FirstSubmitted", "LastModified", "ID", "NumVotes", "OutOfDate", "URL",
   "URLPath", "Version"]

/-! ### Concrete inputs used by the claim theorems and witnesses -/

/-- Well-formed package object with a parameterized `FirstSubmitted`
value. -/
def packageFields (ts : Nat) : List (String × Json) :=
  [("PackageBase", .String "rust-aur"), ("PackageBaseID", .U64 11),
   ("Name", .String "rust-aur"), ("CategoryID", .U64 16),
   ("Description", .String "An AUR client library"),
   ("FirstSubmitted", .U64 ts), ("LastModified", .U64 1609459260),
   ("ID", .U64 42), ("License", .String "MIT"),
   ("Maintainer", .String "steb"), ("NumVotes", .U64 5),
   ("OutOfDate", .U64 1), ("URL", .String "https://example.org"),
   ("URLPath", .String "/packages/rust-aur"), ("Version", .String "0.1.0")]

/-- Package object whose `License` key is missing and whose
`FirstSubmitted` value is within the signed 64-bit range but beyond the
range chrono can represent. -/
def c6PanicFields : List (String × Json) :=
  [("PackageBase", .String "a"), ("PackageBaseID", .U64 1),
   ("Name", .String "a"), ("CategoryID", .U64 1),
   ("Description", .String "x"), ("FirstSubmitted", .U64 1000000000000000),
   ("LastModified", .U64 1), ("ID", .U64 1), ("Maintainer", .Null),
   ("NumVotes", .U64 1), ("OutOfDate", .U64 0), ("URL", .String "u"),
   ("URLPath", .String "p"), ("Version", .String "1")]

/-- Well-formed package object with `License: null` and a maintainer. -/
def c6NullLicenseFields : List (String × Json) :=
  [("PackageBase", .String "b"), ("PackageBaseID", .U64 2),
   ("Name", .String "b"), ("CategoryID", .U64 2),
   ("Description", .String "y"), ("FirstSubmitted", .U64 100),
   ("LastModified", .U64 200), ("ID", .U64 2), ("License", .Null),
   ("Maintainer", .String "bob"), ("NumVotes", .U64 0),
   ("OutOfDate", .U64 0), ("URL", .String "u"), ("URLPath", .String "p"),
   ("Version", .String "2")]

/-- Package object whose `License` value has a wrong JSON type (boolean). -/
def c6BoolLicenseFields : List (String × Json) :=
  [("PackageBase", .String "c"), ("PackageBaseID", .U64 3),
   ("Name", .String "c"), ("CategoryID", .U64 3),
   ("Description", .String "z"), ("FirstSubmitted", .U64 300),
   ("LastModified", .U64 400), ("ID", .U64 3), ("License", .Boolean true),
   ("Maintainer", .Null), ("NumVotes", .U64 0), ("OutOfDate", .U64 0),
   ("URL", .String "u"), ("URLPath", .String "p"), ("Version", .String "3")]

/-- Package object that panics in the timestamp conversion (used as a list
element ahead of a failing element). -/
def c9PanicFields : List (String × Json) :=
  [("PackageBase", .String "d"), ("PackageBaseID", .U64 4),
   ("Name", .String "d"), ("CategoryID", .U64 4),
   ("Description", .String "w"), ("FirstSubmitted", .U64 2000000000000000),
   ("LastModified", .U64 1), ("ID", .U64 4), ("License", .Null),
   ("Maintainer", .Null), ("NumVotes", .U64 1), ("OutOfDate", .U64 0),
   ("URL", .String "u"), ("URLPath", .String "p"), ("Version", .String "4")]

/-- Package object missing its `Name` key, so its record mapping fails with
`InvalidResponse`. -/
def c9BadFields : List (String × Json) :=
  [("PackageBase", .String "e"), ("PackageBaseID", .U64 5),
   ("CategoryID", .U64 5), ("Description", .String "v"),
   ("FirstSubmitted", .U64 500), ("LastModified", .U64 600),
   ("ID", .U64 5), ("License", .Null), ("Maintainer", .Null),
   ("NumVotes", .U64 2), ("OutOfDate", .U64 7), ("URL", .String "u"),
   ("URLPath", .String "p"), ("Version", .String "5")]

/-- Well-formed package object used by witnesses of the array-mapping
claims. -/
def c9GoodFields : List (String × Json) := packageFields 1700000000

/-- Package value that `c9GoodFields` maps to. -/
def c9GoodPackage : Package :=
  { base_name := "rust-aur", base_id := 11, name := "rust-aur",
    version := "0.1.0", homepage := "https://example.org",
    description := "An AUR client library", out_of_date := true,
    created := ⟨1700000000⟩, modified := ⟨1609459260⟩,
    license := some "MIT", maintainer := some "steb", votes := 5, id := 42,
    category_id := 16, download := "/packages/rust-aur" }

/-! ### Inversion lemmas for the record mapper -/

@[simp] theorem Outcome.bind_eq {α β : Type} (x : Outcome α) (f : α → Outcome β) :
    x >>= f = x.bind f := rfl

@[simp] theorem Outcome.pure_eq {α : Type} (a : α) :
    (pure a : Outcome α) = .ok a := rfl

@[simp] theorem Outcome.bind_ok {α β : Type} (a : α) (f : α → Outcome β) :
    Outcome.bind (.ok a) f = f a := rfl

@[simp] theorem Outcome.bind_err {α β : Type} (e : Error) (f : α → Outcome β) :
    Outcome.bind (.err e) f = .err e := rfl

@[simp] theorem Outcome.bind_panic {α β : Type} (m : String) (f : α → Outcome β) :
    Outcome.bind (.panic m) f = .panic m := rfl

theorem Outcome.bind_ok_iff {α β : Type} (x : Outcome α) (f : α → Outcome β) (c : β) :
    x.bind f = .ok c ↔ ∃ a, x = .ok a ∧ f a = .ok c := by
  cases x <;> simp [Outcome.bind]

theorem removeKey_fst (h : List (String × Json)) (k : String) :
    (removeKey h k).1 = lookupKey h k := by
  induction h with
  | nil => rfl
  | cons kv rest ih =>
    simp only [removeKey, lookupKey]
    split <;> simp [ih]

theorem lookupKey_removeKey_ne (h : List (String × Json)) (k k' : String)
    (hne : k' ≠ k) : lookupKey (removeKey h k).2 k' = lookupKey h k' := by
  induction h with
  | nil => rfl
  | cons kv rest ih =>
    simp only [removeKey, lookupKey]
    split
    · next heq => subst heq; simp [lookupKey, Ne.symm hne]
    · simp only [lookupKey]; split <;> simp [ih]

theorem reqString_ok (v : Option Json) (s : String) :
    reqString v = .ok s ↔ v = some (.String s) := by
  cases v with
  | none => simp [reqString]
  | some j => cases j <;> simp [reqString]

theorem reqU64_ok (v : Option Json) (n : Nat) :
    reqU64 v = .ok n ↔ v = some (.U64 n) := by
  cases v with
  | none => simp [reqU64]
  | some j => cases j <;> simp [reqU64]

theorem optString_ok (v : Option Json) (o : Option String) :
    optString v = .ok o ↔
      (∃ s, v = some (.String s) ∧ o = some s) ∨ (v = some .Null ∧ o = none) := by
  cases v with
  | none => simp [optString]
  | some j => cases j <;> (simp [optString]; try aesop)

theorem boolField_ok (v : Option Json) (b : Bool) :
    boolField v = .ok b ↔ ∃ n, v = some (.U64 n) ∧ b = (n != 0) := by
  cases v with
  | none => simp [boolField]
  | some j => cases j <;> (simp [boolField]; try aesop)

theorem fromTimestampOpt_eq (secs : Int) :
    fromTimestampOpt secs =
      if inChronoRange secs then some ⟨secs⟩ else none := by
  simp only [fromTimestampOpt, inChronoRange]

theorem fromTimestamp_eq (secs : Int) :
    fromTimestamp secs =
      if inChronoRange secs then .ok ⟨secs⟩ else .panic outOfRangeMsg := by
  unfold fromTimestamp
  rw [fromTimestampOpt_eq]
  by_cases hr : inChronoRange secs <;> simp [hr, outOfRangeMsg]

theorem fromTimestamp_ok (secs : Int) (d : NaiveDateTime) :
    fromTimestamp secs = .ok d ↔ inChronoRange secs ∧ d = ⟨secs⟩ := by
  rw [fromTimestamp_eq]
  by_cases hr : inChronoRange secs <;> (simp [hr]; try aesop)

theorem timestampField_ok (v : Option Json) (d : NaiveDateTime) :
    timestampField v = .ok d ↔
      ∃ n : Nat, v = some (.U64 n) ∧ n ≤ i64Max ∧
        inChronoRange (Int.ofNat n) ∧ d = ⟨Int.ofNat n⟩ := by
  cases v with
  | none => simp [timestampField]
  | some j =>
    cases j <;> simp [timestampField]
    next n =>
      split
      · next hle => rw [fromTimestamp_ok]; aesop
      · next hle => simp; intro h; omega

theorem reqString_cases (v : Option Json) :
    (∃ s, reqString v = .ok s) ∨ reqString v = .err .InvalidResponse := by
  cases v with
  | none => simp [reqString]
  | some j => cases j <;> simp [reqString]

theorem reqU64_cases (v : Option Json) :
    (∃ n, reqU64 v = .ok n) ∨ reqU64 v = .err .InvalidResponse := by
  cases v with
  | none => simp [reqU64]
  | some j => cases j <;> simp [reqU64]

theorem optString_cases (v : Option Json) :
    (∃ o, optString v = .ok o) ∨ optString v = .err .InvalidResponse := by
  cases v with
  | none => simp [optString]
  | some j => cases j <;> simp [optString]

theorem boolField_cases (v : Option Json) :
    (∃ b, boolField v = .ok b) ∨ boolField v = .err .InvalidResponse := by
  cases v with
  | none => simp [boolField]
  | some j => cases j <;> simp [boolField]

theorem timestampField_cases (v : Option Json) :
    (∃ d, timestampField v = .ok d) ∨ timestampField v = .err .InvalidResponse ∨
      timestampField v = .panic outOfRangeMsg := by
  cases v with
  | none => exact Or.inr (Or.inl rfl)
  | some j =>
    cases j <;> try exact Or.inr (Or.inl rfl)
    next n =>
      have heq : timestampField (some (.U64 n)) =
          if n ≤ i64Max then fromTimestamp (Int.ofNat n)
          else .err .InvalidResponse := rfl
      by_cases hle : n ≤ i64Max
      · by_cases hr : inChronoRange (Int.ofNat n)
        · exact Or.inl ⟨⟨Int.ofNat n⟩,
            by rw [heq, if_pos hle, fromTimestamp_eq, if_pos hr]⟩
        · exact Or.inr (Or.inr
            (by rw [heq, if_pos hle, fromTimestamp_eq, if_neg hr]))
      · exact Or.inr (Or.inl (by rw [heq, if_neg hle]))

/-- Classification helper: binding two classified computations is
classified. -/
theorem Outcome.bind_cases {α β : Type} (x : Outcome α) (f : α → Outcome β)
    (hx : (∃ a, x = .ok a) ∨ x = .err .InvalidResponse ∨ x = .panic outOfRangeMsg)
    (hf : ∀ a, (∃ b, f a = .ok b) ∨ f a = .err .InvalidResponse ∨
      f a = .panic outOfRangeMsg) :
    (∃ b, x.bind f = .ok b) ∨ x.bind f = .err .InvalidResponse ∨
      x.bind f = .panic outOfRangeMsg := by
  rcases hx with ⟨a, ha⟩ | ha | ha <;> rw [ha] <;> simp [Outcome.bind]
  exact hf a

/-- Weaker classification helper for computations that never panic. -/
theorem Outcome.cases_of_no_panic {α : Type} (x : Outcome α)
    (hx : (∃ a, x = .ok a) ∨ x = .err .InvalidResponse) :
    (∃ a, x = .ok a) ∨ x = .err .InvalidResponse ∨ x = .panic outOfRangeMsg :=
  hx.elim Or.inl (fun h => Or.inr (Or.inl h))

/-- Every outcome of the record mapper is a package, the `InvalidResponse`
error, or the chrono out-of-range panic. -/
theorem from_json_cases (j : Json) :
    (∃ p, from_json j = .ok p) ∨ from_json j = .err .InvalidResponse ∨
      from_json j = .panic outOfRangeMsg := by
  cases j <;> try exact Or.inr (Or.inl rfl)
  next h0 =>
  simp only [from_json, Outcome.bind_eq, Outcome.pure_eq]
  apply Outcome.bind_cases _ _ (Outcome.cases_of_no_panic _ (reqString_cases _)); intro base_name
  apply Outcome.bind_cases _ _ (Outcome.cases_of_no_panic _ (reqU64_cases _)); intro base_id
  apply Outcome.bind_cases _ _ (Outcome.cases_of_no_panic _ (reqString_cases _)); intro name
  apply Outcome.bind_cases _ _ (Outcome.cases_of_no_panic _ (reqU64_cases _)); intro category_id
  apply Outcome.bind_cases _ _ (Outcome.cases_of_no_panic _ (reqString_cases _)); intro description
  apply Outcome.bind_cases _ _ (timestampField_cases _); intro created
  apply Outcome.bind_cases _ _ (timestampField_cases _); intro modified
  apply Outcome.bind_cases _ _ (Outcome.cases_of_no_panic _ (reqU64_cases _)); intro id
  apply Outcome.bind_cases _ _ (Outcome.cases_of_no_panic _ (optString_cases _)); intro license
  apply Outcome.bind_cases _ _ (Outcome.cases_of_no_panic _ (optString_cases _)); intro maintainer
  apply Outcome.bind_cases _ _ (Outcome.cases_of_no_panic _ (reqU64_cases _)); intro votes
  apply Outcome.bind_cases _ _ (Outcome.cases_of_no_panic _ (boolField_cases _)); intro out_of_date
  apply Outcome.bind_cases _ _ (Outcome.cases_of_no_panic _ (reqString_cases _)); intro homepage
  apply Outcome.bind_cases _ _ (Outcome.cases_of_no_panic _ (reqString_cases _)); intro download
  apply Outcome.bind_cases _ _ (Outcome.cases_of_no_panic _ (reqString_cases _)); intro version
  exact Or.inl ⟨_, rfl⟩

/-- Inversion of a successful record mapping: every field of the produced
package is the value stored in the source object under the corresponding
service-defined key, with the expected JSON type. -/
theorem from_json_ok_lookups (h : List (String × Json)) (p : Package)
    (hok : from_json (.Object h) = .ok p) :
    lookupKey h "PackageBase" = some (.String p.base_name) ∧
    lookupKey h "PackageBaseID" = some (.U64 p.base_id) ∧
    lookupKey h "Name" = some (.String p.name) ∧
    lookupKey h "CategoryID" = some (.U64 p.category_id) ∧
    lookupKey h "Description" = some (.String p.description) ∧
    (∃ n : Nat, lookupKey h "FirstSubmitted" = some (.U64 n) ∧ n ≤ i64Max ∧
      inChronoRange (Int.ofNat n) ∧ p.created = ⟨Int.ofNat n⟩) ∧
    (∃ n : Nat, lookupKey h "LastModified" = some (.U64 n) ∧ n ≤ i64Max ∧
      inChronoRange (Int.ofNat n) ∧ p.modified = ⟨Int.ofNat n⟩) ∧
    lookupKey h "ID" = some (.U64 p.id) ∧
    ((∃ s, lookupKey h "License" = some (.String s) ∧ p.license = some s) ∨
      (lookupKey h "License" = some .Null ∧ p.license = none)) ∧
    ((∃ s, lookupKey h "Maintainer" = some (.String s) ∧ p.maintainer = some s) ∨
      (lookupKey h "Maintainer" = some .Null ∧ p.maintainer = none)) ∧
    lookupKey h "NumVotes" = some (.U64 p.votes) ∧
    (∃ n : Nat, lookupKey h "OutOfDate" = some (.U64 n) ∧
      p.out_of_date = (n != 0)) ∧
    lookupKey h "URL" = some (.String p.homepage) ∧
    lookupKey h "URLPath" = some (.String p.download) ∧
    lookupKey h "Version" = some (.String p.version) := by
  simp only [from_json, Outcome.bind_eq, Outcome.pure_eq,
    Outcome.bind_ok_iff, Outcome.ok.injEq] at hok
  obtain ⟨bn, h1, bid, h2, nm, h3, cid, h4, desc, h5, crtd, h6, mdfd, h7,
    idv, h8, lic, h9, mnt, h10, vts, h11, ood, h12, hp, h13, dl, h14, ver,
    h15, hpeq⟩ := hok
  subst hpeq
  rw [reqString_ok] at h1 h3 h5 h13 h14 h15
  rw [reqU64_ok] at h2 h4 h8 h11
  rw [timestampField_ok] at h6 h7
  rw [optString_ok] at h9 h10
  rw [boolField_ok] at h12
  simp only [removeKey_fst, lookupKey_removeKey_ne, ne_eq, String.reduceEq, not_false_eq_true] at h1 h2 h3 h4 h5 h6 h7 h8 h9 h10 h11 h12 h13 h14 h15
  exact ⟨h1, h2, h3, h4, h5, h6, h7, h8, h9, h10, h11, h12, h13, h14, h15⟩

/-- The only error the record mapper ever returns is `InvalidResponse`. -/
theorem from_json_err (j : Json) (e : Error) (h : from_json j = .err e) :
    e = .InvalidResponse := by
  rcases from_json_cases j with ⟨p, hp⟩ | hp | hp <;> rw [hp] at h
  · cases h
  · cases h; rfl
  · cases h

/-! ### Lemmas about the element-wise mapping of array results -/

theorem collectPackages_ok (a : List Json) (ps : List Package)
    (hall : List.Forall₂ (fun j p => from_json j = .ok p) a ps) :
    collectPackages a = .ok ps := by
  induction hall with
  | nil => rfl
  | cons hjp _ ih =>
    simp only [collectPackages, Outcome.bind_eq, Outcome.pure_eq, hjp, ih,
      Outcome.bind_ok]

theorem collectPackages_err_first (pre : List Json) (j : Json)
    (post : List Json) (e : Error)
    (hpre : ∀ x ∈ pre, ∃ p, from_json x = .ok p)
    (hj : from_json j = .err e) :
    collectPackages (pre ++ j :: post) = .err e := by
  induction pre with
  | nil => simp only [List.nil_append, collectPackages, Outcome.bind_eq, hj,
      Outcome.bind_err]
  | cons x rest ih =>
    obtain ⟨p, hp⟩ := hpre x (List.mem_cons_self x rest)
    have ihr := ih (fun y hy => hpre y (List.mem_cons_of_mem x hy))
    simp only [List.cons_append, collectPackages, Outcome.bind_eq, hp,
      Outcome.bind_ok, List.append_eq, ihr, Outcome.bind_err]

/-! ### Lemmas about the envelope interpreter -/

theorem interpretEnvelope_object (h : List (String × Json)) (t r : Json)
    (ht : lookupKey h "type" = some t) (hr : lookupKey h "results" = some r) :
    interpretEnvelope (.Object h) =
      match as_string t with
      | some s => if s = "error" then .err (.Aur (aurMessage r)) else .ok r
      | none => .err .InvalidResponse := by
  have h1 : (removeKey h "type").1 = some t := by
    rw [removeKey_fst]; exact ht
  have h2 : (removeKey (removeKey h "type").2 "results").1 = some r := by
    rw [removeKey_fst, lookupKey_removeKey_ne _ _ _ (by decide)]; exact hr
  simp only [interpretEnvelope, h1, h2]

theorem aurMessage_of_not_string (r : Json) (hr : as_string r = none) :
    aurMessage r = jsonToString r := by
  cases r <;> first
  | rfl
  | exact absurd hr (by simp [as_string])

/-! ### Round-trip lemmas for the form-urlencoded serializer -/

theorem toNat_ofNat_byte {b : Nat} (h : b < 256) :
    (Char.ofNat b).toNat = b := by
  have hv : b.isValidChar := Or.inl (by omega)
  simp [Char.ofNat, hv, Char.ofNatAux, Char.toNat, UInt32.toNat]

theorem charOfNat_ne {b : Nat} (hb : b < 256) {c : Char}
    (hbc : b ≠ c.toNat) : Char.ofNat b ≠ c :=
  fun he => hbc (by rw [← he, toNat_ofNat_byte hb])

theorem hexVal_hexUpper (n : Nat) (h : n < 16) :
    hexVal (hexUpper n) = some n := by
  have hd : ∀ m, m < 16 → hexVal (hexUpper m) = some m := by decide
  exact hd n h

theorem hexUpper_ne_reserved (n : Nat) (h : n < 16) :
    hexUpper n ≠ '&' ∧ hexUpper n ≠ '=' := by
  have hd : ∀ m, m < 16 → hexUpper m ≠ '&' ∧ hexUpper m ≠ '=' := by decide
  exact hd n h

theorem encodeComponent_nil : encodeComponent [] = [] := rfl

theorem encodeComponent_cons (b : Nat) (bs : Bytes) :
    encodeComponent (b :: bs) = encodeByte b ++ encodeComponent bs := by
  simp [encodeComponent]

theorem decodeComponent_cons (c : Char) (rest : List Char) :
    decodeComponent (c :: rest) =
      if c = '+' then (decodeComponent rest).map (0x20 :: ·)
      else if c = '%' then decodeEscape rest
      else (decodeComponent rest).map (c.toNat :: ·) := by
  rw [decodeComponent]

theorem decodeComponent_encodeByte (b : Nat) (hb : b < 256)
    (rest : List Char) :
    decodeComponent (encodeByte b ++ rest) =
      (decodeComponent rest).map (b :: ·) := by
  unfold encodeByte
  by_cases h20 : b == 0x20
  · rw [if_pos h20]
    have hbe : b = 0x20 := by simpa using h20
    subst hbe
    rw [List.singleton_append, decodeComponent_cons, if_pos rfl]
  · rw [if_neg h20]
    by_cases hsafe : isFormSafe b
    · rw [if_pos hsafe]
      have hb43 : b ≠ 43 := by
        intro he; subst he; exact absurd hsafe (by decide)
      have hb37 : b ≠ 37 := by
        intro he; subst he; exact absurd hsafe (by decide)
      have hne1 : Char.ofNat b ≠ '+' := charOfNat_ne hb hb43
      have hne2 : Char.ofNat b ≠ '%' := charOfNat_ne hb hb37
      rw [List.singleton_append, decodeComponent_cons, if_neg hne1,
        if_neg hne2]
      simp [toNat_ofNat_byte hb]
    · rw [if_neg hsafe]
      have hdiv : b / 16 < 16 := by omega
      have hmod : b % 16 < 16 := by omega
      have hsum : 16 * (b / 16) + b % 16 = b := by omega
      simp only [List.cons_append, List.nil_append]
      rw [decodeComponent_cons,
        if_neg (by decide : ¬('%' : Char) = '+'),
        if_pos (rfl : ('%' : Char) = '%'), decodeEscape,
        hexVal_hexUpper _ hdiv, hexVal_hexUpper _ hmod]
      simp [hsum]

theorem decodeComponent_encodeComponent (bs : Bytes) (hb : validBytes bs) :
    decodeComponent (encodeComponent bs) = some bs := by
  induction bs with
  | nil =>
    show decodeComponent [] = some []
    rw [decodeComponent]
  | cons b rest ih =>
    have hbb : b < 256 := hb b (List.mem_cons_self b rest)
    have hrest : validBytes rest :=
      fun x hx => hb x (List.mem_cons_of_mem b hx)
    rw [encodeComponent_cons, decodeComponent_encodeByte b hbb, ih hrest]
    rfl

theorem encodeByte_ne_reserved (b : Nat) (hb : b < 256) :
    ∀ c ∈ encodeByte b, c ≠ '&' ∧ c ≠ '=' := by
  intro c hc
  unfold encodeByte at hc
  by_cases h20 : b == 0x20
  · rw [if_pos h20] at hc
    simp at hc; subst hc
    exact ⟨by decide, by decide⟩
  · rw [if_neg h20] at hc
    by_cases hsafe : isFormSafe b
    · rw [if_pos hsafe] at hc
      simp at hc; subst hc
      have hb38 : b ≠ 38 := by
        intro he; subst he; exact absurd hsafe (by decide)
      have hb61 : b ≠ 61 := by
        intro he; subst he; exact absurd hsafe (by decide)
      exact ⟨charOfNat_ne hb hb38, charOfNat_ne hb hb61⟩
    · rw [if_neg hsafe] at hc
      simp at hc
      rcases hc with rfl | rfl | rfl
      · exact ⟨by decide, by decide⟩
      · exact hexUpper_ne_reserved _ (by omega)
      · exact hexUpper_ne_reserved _ (by omega)

theorem encodeComponent_ne_reserved (bs : Bytes) (hb : validBytes bs) :
    ∀ c ∈ encodeComponent bs, c ≠ '&' ∧ c ≠ '=' := by
  induction bs with
  | nil => intro c hc; simp [encodeComponent] at hc
  | cons b rest ih =>
    intro c hc
    rw [encodeComponent_cons] at hc
    rcases List.mem_append.mp hc with h | h
    · exact encodeByte_ne_reserved b (hb b (List.mem_cons_self b rest)) c h
    · exact ih (fun x hx => hb x (List.mem_cons_of_mem b hx)) c h

theorem splitOnAmp_of_no_amp (xs : List Char) (hx : ∀ c ∈ xs, c ≠ '&') :
    splitOnAmp xs = [xs] := by
  induction xs with
  | nil => rfl
  | cons c rest ih =>
    have hc : c ≠ '&' := hx c (List.mem_cons_self c rest)
    have ihr := ih (fun x hxm => hx x (List.mem_cons_of_mem c hxm))
    simp [splitOnAmp, hc, ihr]

theorem splitOnAmp_append (xs ys : List Char) (hx : ∀ c ∈ xs, c ≠ '&') :
    splitOnAmp (xs ++ '&' :: ys) = xs :: splitOnAmp ys := by
  induction xs with
  | nil => simp [splitOnAmp]
  | cons c rest ih =>
    have hc : c ≠ '&' := hx c (List.mem_cons_self c rest)
    have ihr := ih (fun x hxm => hx x (List.mem_cons_of_mem c hxm))
    simp [splitOnAmp, hc, ihr]

theorem splitPair_append (k v : List Char) (hk : ∀ c ∈ k, c ≠ '=') :
    splitPair (k ++ '=' :: v) = (k, v) := by
  induction k with
  | nil => simp [splitPair]
  | cons c rest ih =>
    have hc : c ≠ '=' := hk c (List.mem_cons_self c rest)
    have ihr := ih (fun x hxm => hk x (List.mem_cons_of_mem c hxm))
    simp [splitPair, hc, ihr]

theorem decodePair_serializePair (k v : Bytes) (hk : validBytes k)
    (hv : validBytes v) : decodePair (serializePair (k, v)) = some (k, v) := by
  show decodePair (encodeComponent k ++ '=' :: encodeComponent v) = some (k, v)
  unfold decodePair
  rw [splitPair_append (encodeComponent k) (encodeComponent v)
    (fun c hc => (encodeComponent_ne_reserved k hk c hc).2)]
  simp [decodeComponent_encodeComponent k hk,
    decodeComponent_encodeComponent v hv]

theorem serializePair_no_amp (k v : Bytes) (hk : validBytes k)
    (hv : validBytes v) : ∀ c ∈ serializePair (k, v), c ≠ '&' := by
  intro c hc
  simp only [serializePair, List.mem_append, List.mem_cons] at hc
  rcases hc with h | h | h
  · exact (encodeComponent_ne_reserved k hk c h).1
  · subst h; decide
  · exact (encodeComponent_ne_reserved v hv c h).1

theorem parseQuery_set_query (pairs : List (Bytes × Bytes))
    (hne : pairs ≠ [])
    (hval : ∀ kv ∈ pairs, validBytes kv.1 ∧ validBytes kv.2) :
    parseQuery (set_query_from_pairs pairs) = some pairs := by
  induction pairs with
  | nil => exact absurd rfl hne
  | cons kv rest ih =>
    have hkv := hval kv (List.mem_cons_self kv rest)
    cases rest with
    | nil =>
      unfold parseQuery
      rw [show set_query_from_pairs [kv] = serializePair kv from rfl]
      rw [splitOnAmp_of_no_amp _ (serializePair_no_amp kv.1 kv.2 hkv.1 hkv.2)]
      simp [decodePairs, decodePair_serializePair kv.1 kv.2 hkv.1 hkv.2]
    | cons kv2 rest2 =>
      have hvr : ∀ x ∈ kv2 :: rest2, validBytes x.1 ∧ validBytes x.2 :=
        fun x hx => hval x (List.mem_cons_of_mem kv hx)
      have ihr := ih (by simp) hvr
      unfold parseQuery at ihr ⊢
      rw [show set_query_from_pairs (kv :: kv2 :: rest2) =
        serializePair kv ++ '&' :: set_query_from_pairs (kv2 :: rest2)
        from rfl]
      rw [splitOnAmp_append _ _ (serializePair_no_amp kv.1 kv.2 hkv.1 hkv.2)]
      simp [decodePairs, decodePair_serializePair kv.1 kv.2 hkv.1 hkv.2, ihr]

/-! ### Claim theorems -/

/-- C1: the record mapper is claimed to be total and crash-free, producing
the calendar timestamp for every `FirstSubmitted`/`LastModified` unsigned
integer within the signed 64-bit range and `InvalidResponse` otherwise.
The code violates this: with an in-range timestamp the mapper does produce
the claimed record (first conjunct), but for a value that fits `i64` while
exceeding chrono's representable datetime range (`10^15`, about year
31.7 million) the unchecked `NaiveDateTime::from_timestamp` call panics
instead of failing with `InvalidResponse` (remaining conjuncts). -/
theorem claim_C1 :
    from_json (.Object (packageFields 1609459200)) =
      .ok { base_name := "rust-aur", base_id := 11, name := "rust-aur",
            version := "0.1.0", homepage := "https://example.org",
            description := "An AUR client library", out_of_date := true,
            created := ⟨1609459200⟩, modified := ⟨1609459260⟩,
            license := some "MIT", maintainer := some "steb", votes := 5,
            id := 42, category_id := 16,
            download := "/packages/rust-aur" } ∧
    1000000000000000 ≤ i64Max ∧
    from_json (.Object (packageFields 1000000000000000)) =
      .panic "invalid or out-of-range datetime" :=
  ⟨by decide, by decide, by decide⟩

/-- C5: `info` yields "absent" on an empty-array payload, a present mapped
package on an object payload, and `InvalidResponse` on every other
payload shape. -/
theorem claim_C5 :
    info_result (.Array []) = .ok none ∧
    (∀ h : List (String × Json),
      info_result (.Object h) = Outcome.map some (from_json (.Object h))) ∧
    (∀ j : Json, (∀ h, j ≠ .Object h) → j ≠ .Array [] →
      info_result j = .err .InvalidResponse) := by
  refine ⟨rfl, fun _ => rfl, ?_⟩
  intro j hobj harr
  cases j with
  | Object kvs => exact absurd rfl (hobj kvs)
  | Array xs =>
    cases xs with
    | nil => exact absurd rfl harr
    | cons x rest => rfl
  | I64 v => rfl
  | U64 v => rfl
  | F64 v => rfl
  | String s => rfl
  | Boolean b => rfl
  | Null => rfl

/-- Witness for C5 at concrete payloads: an empty array yields absence, an
object payload is record-mapped and wrapped, and a string payload is
`InvalidResponse`. -/
theorem claim_C5_witness :
    info_result (.Array []) = .ok none ∧
    info_result (.Object []) = Outcome.map some (from_json (.Object [])) ∧
    info_result (.String "nope") = .err .InvalidResponse :=
  ⟨claim_C5.1, claim_C5.2.1 [],
   claim_C5.2.2 (.String "nope") (fun _ h2 => Json.noConfusion h2)
     (fun h2 => Json.noConfusion h2)⟩

/-- C6 (amended): for every package object on which the mapping does not
panic in the timestamp conversion, a `License`/`Maintainer` string maps to
a present optional, JSON null maps to an absent optional, any other value
(including a missing key) fails the whole mapping with `InvalidResponse`,
and a JSON null in any of the thirteen required fields is rejected with
`InvalidResponse`.  (The original claim, without the no-panic proviso, is
refuted by the accompanying counterexample.) -/
theorem claim_C6 (h : List (String × Json)) :
    (∀ p, from_json (.Object h) = .ok p →
      (((∃ s, lookupKey h "License" = some (.String s) ∧ p.license = some s) ∨
        (lookupKey h "License" = some .Null ∧ p.license = none)) ∧
       ((∃ s, lookupKey h "Maintainer" = some (.String s) ∧
          p.maintainer = some s) ∨
        (lookupKey h "Maintainer" = some .Null ∧ p.maintainer = none)))) ∧
    ((from_json (.Object h)).isPanic = false →
      (badOptValue (lookupKey h "License") = true →
        from_json (.Object h) = .err .InvalidResponse) ∧
      (badOptValue (lookupKey h "Maintainer") = true →
        from_json (.Object h) = .err .InvalidResponse) ∧
      (∀ k ∈ requiredKeys, lookupKey h k = some .Null →
        from_json (.Object h) = .err .InvalidResponse)) := by
  constructor
  · intro p hok
    obtain ⟨_, _, _, _, _, _, _, _, c9, c10, _, _, _, _, _⟩ :=
      from_json_ok_lookups h p hok
    exact ⟨c9, c10⟩
  · intro hnp
    rcases from_json_cases (.Object h) with ⟨p, hp⟩ | hp | hp
    · obtain ⟨c1, c2, c3, c4, c5, c6, c7, c8, c9, c10, c11, c12, c13, c14,
        c15⟩ := from_json_ok_lookups h p hp
      refine ⟨fun hbad => ?_, fun hbad => ?_, fun k hk hnull => ?_⟩
      · exfalso
        rcases c9 with ⟨s, hs, _⟩ | ⟨hs, _⟩ <;> rw [hs] at hbad <;>
          simp [badOptValue] at hbad
      · exfalso
        rcases c10 with ⟨s, hs, _⟩ | ⟨hs, _⟩ <;> rw [hs] at hbad <;>
          simp [badOptValue] at hbad
      · exfalso
        simp only [requiredKeys, List.mem_cons, List.not_mem_nil,
          or_false] at hk
        rcases hk with rfl | rfl | rfl | rfl | rfl | rfl | rfl | rfl | rfl |
          rfl | rfl | rfl | rfl
        · rw [hnull] at c1; simp at c1
        · rw [hnull] at c2; simp at c2
        · rw [hnull] at c3; simp at c3
        · rw [hnull] at c4; simp at c4
        · rw [hnull] at c5; simp at c5
        · obtain ⟨n, hn, _⟩ := c6; rw [hnull] at hn; simp at hn
        · obtain ⟨n, hn, _⟩ := c7; rw [hnull] at hn; simp at hn
        · rw [hnull] at c8; simp at c8
        · rw [hnull] at c11; simp at c11
        · obtain ⟨n, hn, _⟩ := c12; rw [hnull] at hn; simp at hn
        · rw [hnull] at c13; simp at c13
        · rw [hnull] at c14; simp at c14
        · rw [hnull] at c15; simp at c15
    · exact ⟨fun _ => hp, fun _ => hp, fun _ _ _ => hp⟩
    · rw [hp] at hnp
      simp [Outcome.isPanic] at hnp

/-- Counterexample to C6 as stated: on an object whose `License` key is
missing, the claim promises an `InvalidResponse` failure, but because the
(earlier-processed) `FirstSubmitted` value fits `i64` while exceeding
chrono's range, the mapping panics instead. -/
theorem claim_C6_counterexample :
    lookupKey c6PanicFields "License" = none ∧
    from_json (.Object c6PanicFields) =
      .panic "invalid or out-of-range datetime" ∧
    (Outcome.panic "invalid or out-of-range datetime" : Outcome Package) ≠
      .err .InvalidResponse :=
  ⟨rfl, by decide, by decide⟩

/-- Witness for C6 at concrete objects: a wrong-typed `License` yields
`InvalidResponse`, and `License: null` yields an absent license. -/
theorem claim_C6_witness :
    from_json (.Object c6BoolLicenseFields) = .err .InvalidResponse ∧
    (∃ p, from_json (.Object c6NullLicenseFields) = .ok p ∧
      p.license = none) := by
  constructor
  · exact ((claim_C6 c6BoolLicenseFields).2 rfl).1 rfl
  · have hok : from_json (.Object c6NullLicenseFields) =
        .ok { base_name := "b", base_id := 2, name := "b", version := "2",
              homepage := "u", description := "y", out_of_date := false,
              created := ⟨100⟩, modified := ⟨200⟩, license := none,
              maintainer := some "bob", votes := 0, id := 2,
              category_id := 2, download := "p" } := by decide
    refine ⟨_, hok, ?_⟩
    rcases ((claim_C6 c6NullLicenseFields).1 _ hok).1 with ⟨s, hs, _⟩ |
      ⟨_, hlic⟩
    · simp [c6NullLicenseFields, lookupKey] at hs
    · exact hlic

/-- C2: for every parsed envelope object containing both a `type` and a
`results` field, the interpreter fails with a service-reported (`Aur`)
error if and only if the `type` value is the JSON string `"error"`; in that
case the message is the `results` value itself when it is a string, and its
compact textual rendering otherwise. -/
theorem claim_C2 (h : List (String × Json)) (t r : Json)
    (ht : lookupKey h "type" = some t)
    (hr : lookupKey h "results" = some r) :
    ((∃ m, interpretEnvelope (.Object h) = .err (.Aur m)) ↔
      t = .String "error") ∧
    (t = .String "error" →
      (∀ s, r = .String s → interpretEnvelope (.Object h) = .err (.Aur s)) ∧
      (as_string r = none →
        interpretEnvelope (.Object h) = .err (.Aur (jsonToString r)))) := by
  rw [interpretEnvelope_object h t r ht hr]
  cases t
  case String s =>
    simp only [as_string]
    by_cases he : s = "error"
    · subst he
      rw [if_pos rfl]
      refine ⟨⟨fun _ => rfl, fun _ => ⟨aurMessage r, rfl⟩⟩, fun _ => ⟨?_, ?_⟩⟩
      · intro s' hs'; subst hs'; rfl
      · intro hrs; rw [aurMessage_of_not_string r hrs]
    · rw [if_neg he]
      refine ⟨⟨fun hc => ?_, fun hts => ?_⟩, fun hts => ?_⟩
      · obtain ⟨m, hm⟩ := hc; simp at hm
      · simp only [Json.String.injEq] at hts; exact (he hts).elim
      · simp only [Json.String.injEq] at hts; exact (he hts).elim
  all_goals
    simp only [as_string]
    exact ⟨⟨fun hc => by obtain ⟨m, hm⟩ := hc; simp at hm,
      fun hts => Json.noConfusion hts⟩, fun hts => Json.noConfusion hts⟩

/-- Witness for C2 at concrete envelopes: a string `results` becomes the
message itself, a non-string `results` is rendered compactly. -/
theorem claim_C2_witness :
    interpretEnvelope (.Object [("type", .String "error"),
      ("results", .String "boom")]) = .err (.Aur "boom") ∧
    interpretEnvelope (.Object [("type", .String "error"),
      ("results", .U64 3)]) = .err (.Aur "3") := by
  constructor
  · exact ((claim_C2 [("type", .String "error"), ("results", .String "boom")]
      (.String "error") (.String "boom") rfl rfl).2 rfl).1 "boom" rfl
  · exact ((claim_C2 [("type", .String "error"), ("results", .U64 3)]
      (.String "error") (.U64 3) rfl rfl).2 rfl).2 rfl

/-- C3: the envelope interpreter fails with `InvalidResponse` exactly when
the parsed value is not a JSON object, or the object lacks a `type` or a
`results` field, or the `type` field is present but is not a JSON
string. -/
theorem claim_C3 (j : Json) :
    interpretEnvelope j = .err .InvalidResponse ↔ envelopeInvalid j := by
  cases j with
  | Object h =>
    rcases ht : lookupKey h "type" with _ | t
    · have h1 : (removeKey h "type").1 = none := by
        rw [removeKey_fst]; exact ht
      simp only [interpretEnvelope, h1, envelopeInvalid]
      simp [ht]
    · rcases hr : lookupKey h "results" with _ | r
      · have h1 : (removeKey h "type").1 = some t := by
          rw [removeKey_fst]; exact ht
        have h2 : (removeKey (removeKey h "type").2 "results").1 = none := by
          rw [removeKey_fst, lookupKey_removeKey_ne _ _ _ (by decide)]
          exact hr
        simp only [interpretEnvelope, h1, h2, envelopeInvalid]
        simp [ht, hr]
      · rw [interpretEnvelope_object h t r ht hr]
        simp only [envelopeInvalid]
        rcases hts : as_string t with _ | s
        · simp only [hts]
          simp [ht, hr, hts]
        · simp only [hts]
          constructor
          · intro hcontra
            by_cases he : s = "error"
            · rw [if_pos he] at hcontra; simp at hcontra
            · rw [if_neg he] at hcontra; simp at hcontra
          · intro hinv
            exfalso
            rcases hinv with h1 | h2 | ⟨t', ht', hs'⟩
            · rw [ht] at h1; cases h1
            · rw [hr] at h2; cases h2
            · rw [ht] at ht'
              injection ht' with heq
              subst heq
              rw [hts] at hs'
              cases hs'
  | I64 v => simp [interpretEnvelope, envelopeInvalid]
  | U64 v => simp [interpretEnvelope, envelopeInvalid]
  | F64 v => simp [interpretEnvelope, envelopeInvalid]
  | String s => simp [interpretEnvelope, envelopeInvalid]
  | Boolean b => simp [interpretEnvelope, envelopeInvalid]
  | Array xs => simp [interpretEnvelope, envelopeInvalid]
  | Null => simp [interpretEnvelope, envelopeInvalid]

/-- C4: an envelope object whose `type` is any JSON string other than
`"error"` succeeds, returning the `results` value unchanged, whatever its
shape and whatever the `type` string says. -/
theorem claim_C4 (h : List (String × Json)) (s : String) (r : Json)
    (ht : lookupKey h "type" = some (.String s))
    (hr : lookupKey h "results" = some r) (hne : s ≠ "error") :
    interpretEnvelope (.Object h) = .ok r := by
  rw [interpretEnvelope_object h (.String s) r ht hr]
  simp only [as_string]
  rw [if_neg hne]

/-- Witness for C4 at a concrete envelope whose `type` string does not match
any operation and whose `results` is not an array or object. -/
theorem claim_C4_witness :
    interpretEnvelope (.Object [("type", .String "multiinfo"),
      ("results", .Boolean true)]) = .ok (.Boolean true) :=
  claim_C4 _ "multiinfo" (.Boolean true) rfl rfl (by decide)

/-- C10: the envelope interpreter ignores unrecognized top-level keys: any
object holding `type ↦ t` and `results ↦ r` is interpreted exactly like the
two-field object `{type: t, results: r}`, whatever else it contains. -/
theorem claim_C10 (h : List (String × Json)) (t r : Json)
    (ht : lookupKey h "type" = some t)
    (hr : lookupKey h "results" = some r) :
    interpretEnvelope (.Object h) =
      interpretEnvelope (.Object [("type", t), ("results", r)]) := by
  rw [interpretEnvelope_object h t r ht hr,
    interpretEnvelope_object [("type", t), ("results", r)] t r rfl rfl]

/-- Witness for C10 at a concrete envelope carrying two extra top-level
keys around `type` and `results`. -/
theorem claim_C10_witness :
    interpretEnvelope (.Object [("version", .U64 1),
      ("type", .String "search"), ("results", .Array []),
      ("resultcount", .U64 0)]) =
      interpretEnvelope (.Object [("type", .String "search"),
        ("results", .Array [])]) :=
  claim_C10 _ (.String "search") (.Array []) rfl rfl

/-- C9 (amended): element mapping of the array-returning operations is
fail-fast and all-or-nothing.  If every element maps to a package, the
operation returns exactly one package per element in array order; if an
element fails record mapping with an error and every element before it maps
successfully, the whole operation returns that error and no package list.
(The original claim, which promised the error for a failing element even
when an earlier element panics, is refuted by the accompanying
counterexample.) -/
theorem claim_C9 :
    (∀ (a : List Json) (ps : List Package),
      List.Forall₂ (fun j p => from_json j = .ok p) a ps →
        search_result (.Array a) = .ok ps ∧
        msearch_result (.Array a) = .ok ps ∧
        multiinfo_result (.Array a) = .ok ps) ∧
    (∀ (pre : List Json) (j : Json) (post : List Json) (e : Error),
      (∀ x ∈ pre, ∃ p, from_json x = .ok p) → from_json j = .err e →
        search_result (.Array (pre ++ j :: post)) = .err e ∧
        msearch_result (.Array (pre ++ j :: post)) = .err e ∧
        multiinfo_result (.Array (pre ++ j :: post)) = .err e) := by
  constructor
  · intro a ps hall
    have hc := collectPackages_ok a ps hall
    exact ⟨hc, hc, hc⟩
  · intro pre j post e hpre hj
    have hc := collectPackages_err_first pre j post e hpre hj
    exact ⟨hc, hc, hc⟩

/-- Counterexample to C9 as stated: in an array whose second element fails
record mapping with `InvalidResponse`, the claim promises that error as the
operation result, but the first element panics in the timestamp conversion,
so the whole operation panics instead. -/
theorem claim_C9_counterexample :
    from_json (.Object c9BadFields) = .err .InvalidResponse ∧
    search_result (.Array [.Object c9PanicFields, .Object c9BadFields]) =
      .panic "invalid or out-of-range datetime" ∧
    (Outcome.panic "invalid or out-of-range datetime" :
      Outcome (List Package)) ≠ .err .InvalidResponse :=
  ⟨by decide, by decide, by decide⟩

/-- Witness for C9 at concrete arrays: a singleton array of a well-formed
object maps to the corresponding singleton package list, and a singleton
array of a failing object yields its `InvalidResponse` error. -/
theorem claim_C9_witness :
    search_result (.Array [.Object c9GoodFields]) = .ok [c9GoodPackage] ∧
    multiinfo_result (.Array [.Object c9BadFields]) =
      .err .InvalidResponse := by
  constructor
  · exact (claim_C9.1 [.Object c9GoodFields] [c9GoodPackage]
      (List.Forall₂.cons (by decide) List.Forall₂.nil)).1
  · exact (claim_C9.2 [] (.Object c9BadFields) [] .InvalidResponse
      (fun x hx => absurd hx (List.not_mem_nil x)) (by decide)).2.2

/-- C7: for each single-argument operation (`search`, `msearch`, `info`)
and every argument byte sequence, the built query string is exactly
`type=<op>&arg=<percent-encoded-value>` with no other parameters, and
decoding the query back into pairs reproduces the original argument
exactly. -/
theorem claim_C7 :
    (∀ arg : Bytes, validBytes arg →
      call_one_query (strBytes "search") arg =
        "type=search&arg=".toList ++ encodeComponent arg ∧
      parseQuery (call_one_query (strBytes "search") arg) =
        some [(strBytes "type", strBytes "search"),
              (strBytes "arg", arg)]) ∧
    (∀ arg : Bytes, validBytes arg →
      call_one_query (strBytes "msearch") arg =
        "type=msearch&arg=".toList ++ encodeComponent arg ∧
      parseQuery (call_one_query (strBytes "msearch") arg) =
        some [(strBytes "type", strBytes "msearch"),
              (strBytes "arg", arg)]) ∧
    (∀ arg : Bytes, validBytes arg →
      call_one_query (strBytes "info") arg =
        "type=info&arg=".toList ++ encodeComponent arg ∧
      parseQuery (call_one_query (strBytes "info") arg) =
        some [(strBytes "type", strBytes "info"),
              (strBytes "arg", arg)]) := by
  refine ⟨fun arg ha => ⟨rfl, ?_⟩, fun arg ha => ⟨rfl, ?_⟩,
    fun arg ha => ⟨rfl, ?_⟩⟩
  all_goals
    refine parseQuery_set_query _ (by simp) ?_
    intro kv hk
    simp only [List.mem_cons, List.not_mem_nil, or_false] at hk
    rcases hk with rfl | rfl
    · exact ⟨by decide, by decide⟩
    · exact ⟨(by decide : validBytes (strBytes "arg")), ha⟩

/-- Witness for C7 at a concrete argument containing a space, an ampersand
and an equals sign: the query string is the claimed literal and decodes
back to the original argument. -/
theorem claim_C7_witness :
    call_one_query (strBytes "search") (strBytes "a b&c=1") =
      "type=search&arg=a+b%26c%3D1".toList ∧
    parseQuery (call_one_query (strBytes "search") (strBytes "a b&c=1")) =
      some [(strBytes "type", strBytes "search"),
            (strBytes "arg", strBytes "a b&c=1")] := by
  have h := claim_C7.1 (strBytes "a b&c=1") (by decide)
  refine ⟨?_, h.2⟩
  rw [h.1]
  decide

/-- C8: for every input sequence of names, the `multiinfo` query consists of
exactly one `type=multiinfo` pair followed by one `arg[]=<value>` pair per
name, in input order, each value independently percent-encoded (witnessed
by decoding the query back into exactly those pairs); an empty input
sequence yields the query `type=multiinfo` with zero `arg[]` pairs. -/
theorem claim_C8 (names : List Bytes) (hval : ∀ n ∈ names, validBytes n) :
    parseQuery (call_multi_query (strBytes "multiinfo") names) =
      some ((strBytes "type", strBytes "multiinfo") ::
        names.map (fun n => (strBytes "arg[]", n))) ∧
    call_multi_query (strBytes "multiinfo") [] = "type=multiinfo".toList := by
  constructor
  · refine parseQuery_set_query _ (by simp) ?_
    intro kv hk
    simp only [List.mem_cons, List.mem_map] at hk
    rcases hk with rfl | ⟨n, hn, rfl⟩
    · exact ⟨by decide, by decide⟩
    · exact ⟨(by decide : validBytes (strBytes "arg[]")), hval n hn⟩
  · rfl

/-- Witness for C8 at a concrete two-name input with reserved characters in
the names, and at the empty input. -/
theorem claim_C8_witness :
    parseQuery (call_multi_query (strBytes "multiinfo")
      [strBytes "a b", strBytes "x&y"]) =
      some [(strBytes "type", strBytes "multiinfo"),
            (strBytes "arg[]", strBytes "a b"),
            (strBytes "arg[]", strBytes "x&y")] ∧
    call_multi_query (strBytes "multiinfo") [] = "type=multiinfo".toList := by
  have h := claim_C8 [strBytes "a b", strBytes "x&y"] (by decide)
  exact ⟨h.1, (claim_C8 [] (fun n hn => absurd hn (List.not_mem_nil n))).2⟩

end RustAur
